import Mathlib

/-!
# ResearchBuddy — verification of the document/assistant pipeline

Shallow embedding of the core pipeline of the ResearchBuddy repository
(`src/ResearchBuddy.tsx`, `src/ResearchBuddyNative.tsx`):

* the structured-reply decoder `parseJsonFromMarkdown` and its helper
  `sanitizeJsonString`;
* the plain-text normalizer `markdownToText`;
* the per-page PDF text-extraction loop of `handleFileUpload` and of
  `extractTextFromPDF`;
* the `sendMessage` exchange controller (prompt assembly, response-text
  access paths, error classification, state updates);
* the message-list (conversation history) update operations.

Strings are modelled as Lean `String`/`List Char`.  JavaScript regular
expressions are modelled by dedicated scanning functions whose semantics
follow the concrete patterns used in the source (leftmost match, the
greedy/lazy behaviour of each concrete pattern, `g`/`m`/`i` flags as used).
`JSON.parse` is modelled by a recursive-descent parser `parseJson`
returning `Option Json`; a thrown exception is `none`.  JavaScript `\s`
and `String.prototype.trim` are modelled by `jsWsChar`/`jsTrim` covering
the ASCII whitespace characters (the exotic Unicode space code points
accepted by JavaScript do not occur in any statement below).
-/

/-- ASCII whitespace, modelling the characters of JavaScript `\s` and
`String.prototype.trim` that can occur in this development. -/
def jsWsChar (c : Char) : Bool :=
  c = ' ' || c = '\t' || c = '\n' || c = '\r' || c = '\x0b' || c = '\x0c'

/-- JavaScript `String.prototype.trim` on a character list. -/
def jsTrimList (l : List Char) : List Char :=
  ((l.dropWhile jsWsChar).reverse.dropWhile jsWsChar).reverse

/-- JavaScript `String.prototype.trim`. -/
def jsTrim (s : String) : String :=
  String.mk (jsTrimList s.data)

/-- Whether `needle` occurs as a contiguous substring of `hay`
(JavaScript `String.prototype.includes`). -/
def containsSub (needle hay : String) : Bool :=
  decide (needle.data <:+: hay.data)

/-- Index of the first occurrence of `needle` in `hay`, if any. -/
def findSubIdx (needle : List Char) : List Char → Option Nat
  | [] => if needle = [] then some 0 else none
  | c :: cs =>
    if needle.isPrefixOf (c :: cs) then some 0
    else (findSubIdx needle cs).map (· + 1)

/-- One sequential global `replace` of a fixed pattern by a fixed
replacement, continuing after each match as JavaScript `/g` does.
`fuel` bounds the scan; callers pass the input length plus one. -/
def replaceSeq (pat repl : List Char) : Nat → List Char → List Char
  | 0, l => l
  | _ + 1, [] => []
  | n + 1, c :: cs =>
    if pat ≠ [] ∧ pat.isPrefixOf (c :: cs) then
      repl ++ replaceSeq pat repl n ((c :: cs).drop pat.length)
    else
      c :: replaceSeq pat repl n cs

/-- JavaScript `s.replace(pat, repl)` for fixed-text patterns with the
`g` flag. -/
def jsReplaceAllSub (s : String) (pat repl : String) : String :=
  String.mk (replaceSeq pat.data repl.data (s.data.length + 1) s.data)

/-! ## JSON values and `JSON.parse`

`JSON.parse` is modelled by a strict recursive-descent parser.  Numbers
are represented exactly as rationals (decimal fraction times a power of
ten); JavaScript's subsequent rounding to binary floating point is not
observable in any statement below. -/

/-- JSON values. Object fields keep insertion order; as in JavaScript,
a duplicated key is resolved by the *last* occurrence (`Json.getMember`). -/
inductive Json where
  | null : Json
  | bool : Bool → Json
  | num : Rat → Json
  | str : String → Json
  | arr : List Json → Json
  | obj : List (String × Json) → Json

/-- Member access `j[key]` on an object, last occurrence winning as for
repeated keys in a JavaScript object literal. -/
def Json.getMember (j : Json) (key : String) : Option Json :=
  match j with
  | .obj fields => ((fields.filter (fun p => p.1 = key)).getLast?).map Prod.snd
  | _ => none

/-- JSON whitespace (the only characters `JSON.parse` skips). -/
def jsonWsChar (c : Char) : Bool :=
  c = ' ' || c = '\t' || c = '\n' || c = '\r'

/-- Drop leading JSON whitespace. -/
def skipJsonWs (l : List Char) : List Char :=
  l.dropWhile jsonWsChar

/-- Hexadecimal digit value. -/
def hexVal (c : Char) : Option Nat :=
  if '0' ≤ c ∧ c ≤ '9' then some (c.toNat - '0'.toNat)
  else if 'a' ≤ c ∧ c ≤ 'f' then some (c.toNat - 'a'.toNat + 10)
  else if 'A' ≤ c ∧ c ≤ 'F' then some (c.toNat - 'A'.toNat + 10)
  else none

/-- Four hex digits of a `\uXXXX` escape. -/
def parseHex4 (l : List Char) : Option (Nat × List Char) :=
  match l with
  | a :: b :: c :: d :: rest =>
    match hexVal a, hexVal b, hexVal c, hexVal d with
    | some x, some y, some z, some w => some (((x * 16 + y) * 16 + z) * 16 + w, rest)
    | _, _, _, _ => none
  | _ => none

/-- Body of a JSON string after the opening quote.  Raw control
characters are rejected, exactly as by `JSON.parse`.  A `\uXXXX` escape
denoting an invalid scalar value degrades to `Char.ofNat`'s default, a
case unreachable from every statement below. -/
def parseJStr : Nat → List Char → List Char → Option (String × List Char)
  | 0, _, _ => none
  | _ + 1, [], _ => none
  | n + 1, c :: cs, acc =>
    if c = '"' then some (String.mk acc.reverse, cs)
    else if c = '\\' then
      match cs with
      | [] => none
      | e :: rest =>
        if e = '"' then parseJStr n rest ('"' :: acc)
        else if e = '\\' then parseJStr n rest ('\\' :: acc)
        else if e = '/' then parseJStr n rest ('/' :: acc)
        else if e = 'b' then parseJStr n rest ('\x08' :: acc)
        else if e = 'f' then parseJStr n rest ('\x0c' :: acc)
        else if e = 'n' then parseJStr n rest ('\n' :: acc)
        else if e = 'r' then parseJStr n rest ('\r' :: acc)
        else if e = 't' then parseJStr n rest ('\t' :: acc)
        else if e = 'u' then
          match parseHex4 rest with
          | some (v, rest') => parseJStr n rest' (Char.ofNat v :: acc)
          | none => none
        else none
    else if c.toNat < 0x20 then none
    else parseJStr n cs (c :: acc)

/-- Digits of a number literal. -/
def takeDigits (l : List Char) : List Char × List Char :=
  (l.takeWhile Char.isDigit, l.dropWhile Char.isDigit)

/-- Natural-number value of a digit list. -/
def digitsToNat (l : List Char) : Nat :=
  l.foldl (fun acc c => acc * 10 + (c.toNat - '0'.toNat)) 0

/-- A JSON number literal (`-?(0|[1-9][0-9]*)(\.[0-9]+)?([eE][+-]?[0-9]+)?`),
valued exactly as a rational. -/
def parseJNum (l : List Char) : Option (Rat × List Char) :=
  let (neg, l₁) := match l with
    | '-' :: rest => (true, rest)
    | _ => (false, l)
  let (intDigits, l₂) := takeDigits l₁
  if intDigits = [] then none
  else if intDigits.length > 1 ∧ intDigits.headI = '0' then none
  else
    let (fracDigits, l₃) := match l₂ with
      | '.' :: rest =>
        let (ds, r) := takeDigits rest
        (ds, if ds = [] then l₂ else r)
      | _ => ([], l₂)
    if l₂ ≠ l₃ ∧ fracDigits = [] then none
    else
      let (expVal, l₄) : Option Int × List Char := match l₃ with
        | 'e' :: rest | 'E' :: rest =>
          let (esign, rest') : Bool × List Char := match rest with
            | '+' :: r => (false, r)
            | '-' :: r => (true, r)
            | _ => (false, rest)
          let (eds, r) := takeDigits rest'
          if eds = [] then (none, l₃)
          else (some (if esign then -(digitsToNat eds : Int) else (digitsToNat eds : Int)), r)
        | _ => (some 0, l₃)
      match expVal with
      | none => none
      | some e =>
        let mantissa : Rat :=
          (digitsToNat intDigits : Rat) + (digitsToNat fracDigits : Rat) / ((10 : Rat) ^ fracDigits.length)
        let scaled : Rat :=
          if e ≥ 0 then mantissa * (10 : Rat) ^ e.toNat else mantissa / (10 : Rat) ^ (-e).toNat
        some ((if neg then -scaled else scaled), l₄)

mutual

/-- A JSON value, leading whitespace allowed. -/
def parseJVal : Nat → List Char → Option (Json × List Char)
  | 0, _ => none
  | n + 1, l =>
    match skipJsonWs l with
    | 'n' :: 'u' :: 'l' :: 'l' :: rest => some (.null, rest)
    | 't' :: 'r' :: 'u' :: 'e' :: rest => some (.bool true, rest)
    | 'f' :: 'a' :: 'l' :: 's' :: 'e' :: rest => some (.bool false, rest)
    | '"' :: rest => (parseJStr (rest.length + 1) rest []).map (fun p => (.str p.1, p.2))
    | '[' :: rest =>
      (match skipJsonWs rest with
       | ']' :: r => some (.arr [], r)
       | _ => parseJElems n rest [])
    | '{' :: rest =>
      (match skipJsonWs rest with
       | '}' :: r => some (.obj [], r)
       | _ => parseJMembers n rest [])
    | l' => (parseJNum l').map (fun p => (.num p.1, p.2))

/-- Comma-separated array elements up to the closing bracket. -/
def parseJElems : Nat → List Char → List Json → Option (Json × List Char)
  | 0, _, _ => none
  | n + 1, l, acc =>
    match parseJVal n l with
    | none => none
    | some (j, rest) =>
      match skipJsonWs rest with
      | ',' :: r => parseJElems n r (j :: acc)
      | ']' :: r => some (.arr (j :: acc).reverse, r)
      | _ => none

/-- Comma-separated object members up to the closing brace. -/
def parseJMembers : Nat → List Char → List (String × Json) → Option (Json × List Char)
  | 0, _, _ => none
  | n + 1, l, acc =>
    match skipJsonWs l with
    | '"' :: rest =>
      (match parseJStr (rest.length + 1) rest [] with
       | none => none
       | some (key, rest') =>
         match skipJsonWs rest' with
         | ':' :: r =>
           (match parseJVal n r with
            | none => none
            | some (v, rest'') =>
              match skipJsonWs rest'' with
              | ',' :: r' => parseJMembers n r' ((key, v) :: acc)
              | '}' :: r' => some (.obj ((key, v) :: acc).reverse, r')
              | _ => none)
         | _ => none)
    | _ => none

end

/-- Model of `JSON.parse`: parse one value and require only whitespace after it;
a `SyntaxError` is `none`. -/
def parseJson (s : String) : Option Json :=
  match parseJVal (s.data.length + 2) s.data with
  | some (j, rest) => if skipJsonWs rest = [] then some j else none
  | none => none

/-! ## `sanitizeJsonString` (src/ResearchBuddy.tsx, lines 234–274)

The four sequential `replace` passes.  The two look-behind patterns
`(?<!\\)"` and `(?<!\\)\\` are modelled by a scan that carries the
previous character of the pass's *input*, which is exactly what a
JavaScript look-behind examines. -/

/-- Is `c` removed by the control-character strip
`[\x00-\x08\x0B\x0C\x0E-\x1F\x7F]`? -/
def strippedCtrl (c : Char) : Bool :=
  c.toNat ≤ 0x08 || c.toNat = 0x0b || c.toNat = 0x0c ||
    (0x0e ≤ c.toNat && c.toNat ≤ 0x1f) || c.toNat = 0x7f

/-- Replace every occurrence of `target` not preceded by a backslash in
the input by `repl` (the `(?<!\\)` global replaces). -/
def escUnpreceded (target : Char) (repl : List Char) : Option Char → List Char → List Char
  | _, [] => []
  | prev, c :: cs =>
    if c = target ∧ prev ≠ some '\\' then
      repl ++ escUnpreceded target repl (some c) cs
    else
      c :: escUnpreceded target repl (some c) cs

/-- Model of `sanitizeJsonString`: strip disallowed control characters, escape
unescaped quotes, escape unescaped backslashes, then escape the literal
newline/carriage-return/tab characters. -/
def sanitizeJsonString (s : String) : String :=
  if s = "" then s
  else
    let l := s.data.filter (fun c => ¬ strippedCtrl c)
    let l := escUnpreceded '"' ['\\', '"'] none l
    let l := escUnpreceded '\\' ['\\', '\\'] none l
    let l := l.flatMap (fun c =>
      if c = '\n' then ['\\', 'n']
      else if c = '\r' then ['\\', 'r']
      else if c = '\t' then ['\\', 't']
      else [c])
    String.mk l

/-! ## `parseJsonFromMarkdown` (src/ResearchBuddy.tsx, lines 283–392) -/

/-- The fenced-block extraction `/```json\s*([\s\S]*?)\s*```/` followed by
the `match[1]` truthiness test and `match[1].trim()`: the matched region
runs from the first occurrence of the json-tagged fence to the first
closing fence after it, the lazy group together with the two `\s*`
borders making the capture the trimmed text in between; an all-whitespace
capture is falsy and is treated like a missing block. -/
def jsonBlockContent (s : String) : Option String :=
  match findSubIdx ('`' :: '`' :: '`' :: 'j' :: 's' :: 'o' :: 'n' :: []) s.data with
  | none => none
  | some i =>
    let afterTag := s.data.drop (i + 7)
    match findSubIdx ('`' :: '`' :: '`' :: []) afterTag with
    | none => none
    | some e =>
      let t := jsTrimList (afterTag.take e)
      if t = [] then none else some (String.mk t)

/-- Body of `((?:[^"\\]|\\.)*)"` after the opening quote: escaped-string
characters up to an unescaped closing quote. -/
def escapedBody : Nat → List Char → List Char → Option (List Char × List Char)
  | 0, _, _ => none
  | _ + 1, [], _ => none
  | n + 1, c :: cs, acc =>
    if c = '"' then some (acc.reverse, cs)
    else if c = '\\' then
      match cs with
      | [] => none
      | e :: rest => escapedBody n rest (e :: '\\' :: acc)
    else escapedBody n cs (c :: acc)

/-- Attempt the strategy-1c pattern `/"response"\s*:\s*"((?:[^"\\]|\\.)*)"/`
at the head of `l`. -/
def respFieldAt (l : List Char) : Option (List Char) :=
  match l with
  | '"' :: 'r' :: 'e' :: 's' :: 'p' :: 'o' :: 'n' :: 's' :: 'e' :: '"' :: rest =>
    let r₁ := rest.dropWhile jsWsChar
    match r₁ with
    | ':' :: r₂ =>
      let r₃ := r₂.dropWhile jsWsChar
      (match r₃ with
       | '"' :: r₄ => (escapedBody (r₄.length + 1) r₄ []).map Prod.fst
       | _ => none)
    | _ => none
  | _ => none

/-- Leftmost match of the strategy-1c pattern. -/
def respFieldSearch : Nat → List Char → Option (List Char)
  | 0, _ => none
  | _ + 1, [] => none
  | n + 1, c :: cs =>
    match respFieldAt (c :: cs) with
    | some g => some g
    | none => respFieldSearch n cs

/-- The manual unescaping applied to the strategy-1c capture:
`\"`→`"`, `\n`→newline, `\t`→tab, `\r`→return, in source order. -/
def unescape1c (g : List Char) : String :=
  let l := replaceSeq ['\\', '"'] ['"'] (g.length + 1) g
  let l := replaceSeq ['\\', 'n'] ['\n'] (l.length + 1) l
  let l := replaceSeq ['\\', 't'] ['\t'] (l.length + 1) l
  let l := replaceSeq ['\\', 'r'] ['\r'] (l.length + 1) l
  String.mk l

/-- Strategy 1: fenced json block, direct parse, sanitized parse, then
manual `response`-field extraction, mirroring lines 294–347. -/
def strategy1 (markdown : String) : Option Json :=
  match jsonBlockContent markdown with
  | none => none
  | some jsonStr =>
    match parseJson jsonStr with
    | some j => some j
    | none =>
      match parseJson (sanitizeJsonString jsonStr) with
      | some j => some j
      | none =>
        (respFieldSearch (jsonStr.data.length + 1) jsonStr.data).map
          (fun g => Json.obj [("response", Json.str (unescape1c g))])

/-- Lazy body of strategy 3: grow until `["][\s]*}` follows or the input
ends (the `$` alternative). -/
def looseBody : Nat → List Char → List Char → List Char
  | 0, _, acc => acc.reverse
  | _ + 1, [], acc => acc.reverse
  | n + 1, c :: cs, acc =>
    if c = '"' then
      match cs.dropWhile jsWsChar with
      | '}' :: _ => acc.reverse
      | _ => looseBody n cs (c :: acc)
    else looseBody n cs (c :: acc)

/-- Attempt the strategy-3 pattern
`/(?:response["\s]*:[\s]*["])([\s\S]*?)(?:["][\s]*}|$)/i` at the head of
`l`: a case-insensitive `response`, a run of quotes/whitespace, a colon,
whitespace, an opening quote, then the lazy body. -/
def looseAt (l : List Char) : Option (List Char) :=
  let lc := (l.take 8).map Char.toLower
  if lc = ('r' :: 'e' :: 's' :: 'p' :: 'o' :: 'n' :: 's' :: 'e' :: []) then
    let r₁ := (l.drop 8).dropWhile (fun c => c = '"' || jsWsChar c)
    match r₁ with
    | ':' :: r₂ =>
      let r₃ := r₂.dropWhile jsWsChar
      (match r₃ with
       | '"' :: r₄ => some (looseBody (r₄.length + 1) r₄ [])
       | _ => none)
    | _ => none
  else none

/-- Leftmost match of the strategy-3 pattern. -/
def looseSearch : Nat → List Char → Option (List Char)
  | 0, _ => none
  | _ + 1, [] => none
  | n + 1, c :: cs =>
    match looseAt (c :: cs) with
    | some g => some g
    | none => looseSearch n cs

/-- The unescaping and trim applied to the strategy-3 capture:
`\n`→newline, `\"`→`"`, `\\`→`\`, `\t`→tab, then `trim`. -/
def unescape3 (g : List Char) : String :=
  let l := replaceSeq ['\\', 'n'] ['\n'] (g.length + 1) g
  let l := replaceSeq ['\\', '"'] ['"'] (l.length + 1) l
  let l := replaceSeq ['\\', '\\'] ['\\'] (l.length + 1) l
  let l := replaceSeq ['\\', 't'] ['\t'] (l.length + 1) l
  String.mk (jsTrimList l)

/-- Remove the first case-insensitive occurrence of `response\s*:?\s*`
(the non-global second replace of strategy 4). -/
def removeRespLabel : Nat → List Char → List Char
  | 0, l => l
  | _ + 1, [] => []
  | n + 1, c :: cs =>
    let lc := ((c :: cs).take 8).map Char.toLower
    if lc = ('r' :: 'e' :: 's' :: 'p' :: 'o' :: 'n' :: 's' :: 'e' :: []) then
      let r₁ := ((c :: cs).drop 8).dropWhile jsWsChar
      match r₁ with
      | ':' :: r₂ => r₂.dropWhile jsWsChar
      | _ => r₁
    else c :: removeRespLabel n cs

/-- The apology substituted when strategy 4 salvages nothing. -/
def apologyMsg : String :=
  "I apologize, but I\x27m having trouble formatting my response properly. Could you please try asking your question again?"

/-- Strategy 4: strip structural punctuation, drop a leading
`response:`-like label, trim and truncate to 800 characters. -/
def lastResortText (markdown : String) : String :=
  let l := markdown.data.filter (fun c => ¬ (c = '{' || c = '}' || c = '"' || c = '[' || c = ']'))
  let l := removeRespLabel (l.length + 1) l
  String.mk ((jsTrimList l).take 800)

/-- The diagnostic raised by `parseJsonFromMarkdown` on an empty input. -/
def invalidInputMsg : String :=
  "Invalid markdown input: must be a non-empty string"

/-- The value produced by the strategy cascade of `parseJsonFromMarkdown`
once the input validation has passed. -/
def parseCascade (markdown : String) : Json :=
  match strategy1 markdown with
  | some j => j
  | none =>
    match parseJson markdown with
    | some j => j
    | none =>
      match looseSearch (markdown.data.length + 1) markdown.data with
      | some g => Json.obj [("response", Json.str (unescape3 g))]
      | none =>
        let cleaned := lastResortText markdown
        Json.obj [("response", Json.str (if cleaned = "" then apologyMsg else cleaned))]

/-- Model of `parseJsonFromMarkdown`: an empty input fails the validation at the
top of the function and throws; any other input runs the cascade, which
cannot throw. -/
def parseJsonFromMarkdown (markdown : String) : Except String Json :=
  if markdown = "" then .error invalidInputMsg
  else .ok (parseCascade markdown)

/-! ## `markdownToText` (src/ResearchBuddyNative.tsx, lines 29–74)

Each `replace` pass is a rule giving, at a position, the length of the
leftmost-match attempt there and its replacement; `applyRule` scans the
string left to right carrying the previous *input* character so the
multiline anchors `^`/`$` can be evaluated, and resumes after each match
as a JavaScript global replace does. -/

/-- The backquote character (0x60). -/
def backquote : Char := Char.ofNat 0x60

/-- A rule: at the head of the remaining input (with the previous input
character for the `^` anchor), either no match or the match length
together with the replacement text. -/
def MdRule : Type := Option Char → List Char → Option (Nat × List Char)

/-- Multiline `^`: start of input or just after a newline. -/
def lineStart (prev : Option Char) : Bool :=
  prev = none || prev = some '\n'

/-- Scan applying `rule` at every position, emitting replacements and
resuming after each match, the previous character always taken from the
input as JavaScript regex scanning does.  `fuel` bounds the scan; every
rule used below consumes at least one character per match. -/
def applyRuleAux (rule : MdRule) : Nat → Option Char → List Char → List Char
  | 0, _, l => l
  | _ + 1, _, [] => []
  | n + 1, prev, c :: cs =>
    match rule prev (c :: cs) with
    | some (k, repl) =>
      if k = 0 then c :: applyRuleAux rule n (some c) cs
      else repl ++ applyRuleAux rule n ((c :: cs).get? (k - 1)) ((c :: cs).drop k)
    | none => c :: applyRuleAux rule n (some c) cs

/-- Apply one global replace pass. -/
def applyRule (rule : MdRule) (l : List Char) : List Char :=
  applyRuleAux rule (l.length + 1) none l

/-- The tail `\s+(.+)$` shared by the header, list and block-quote rules:
a greedy run of whitespace backtracking just enough to leave a non-empty
remainder of the current line for `(.+)`, which then runs to the line
end.  Returns the consumed length and the `(.+)` capture. -/
def wsContentTail (t : List Char) : Option (Nat × List Char) :=
  let w := (t.takeWhile jsWsChar).length
  if w = 0 then none else pick t w
where
  /-- Greedy backtracking: the largest `k ≤ w` such that a character
  other than a newline starts at offset `k`. -/
  pick (t : List Char) : Nat → Option (Nat × List Char)
    | 0 => none
    | k + 1 =>
      match t.get? (k + 1) with
      | some ch =>
        if ch = '\n' then pick t k
        else
          let g := (t.drop (k + 1)).takeWhile (fun c => c ≠ '\n')
          some (k + 1 + g.length, g)
      | none => pick t k

/-- Rule for ```` /```[\s\S]*?\n([\s\S]*?)```/g ```` → `$1`: an opening
fence, lazily anything up to the first newline, then the capture up to
the first closing fence. -/
def ruleCodeBlock : MdRule := fun _ l =>
  match l with
  | c₁ :: c₂ :: c₃ :: rest =>
    if c₁ = backquote ∧ c₂ = backquote ∧ c₃ = backquote then
      let a := rest.takeWhile (fun c => c ≠ '\n')
      if a.length = rest.length then none
      else
        let afterNl := rest.drop (a.length + 1)
        match findSubIdx [backquote, backquote, backquote] afterNl with
        | none => none
        | some e => some (3 + a.length + 1 + e + 3, afterNl.take e)
    else none
  | _ => none

/-- Rule for `` /`([^`]+)`/g `` → `$1`. -/
def ruleInlineCode : MdRule := fun _ l =>
  match l with
  | c :: rest =>
    if c = backquote then
      let g := rest.takeWhile (fun x => x ≠ backquote)
      if g = [] then none
      else if rest.get? g.length = some backquote then some (1 + g.length + 1, g)
      else none
    else none
  | _ => none

/-- Rule for `/^#{1,6}\s+(.+)$/gm` → `$1`. -/
def ruleHeader : MdRule := fun prev l =>
  if lineStart prev then
    let hs := (l.takeWhile (fun c => c = '#')).length
    if hs = 0 ∨ hs > 6 then none
    else
      match wsContentTail (l.drop hs) with
      | some (k, g) => some (hs + k, g)
      | none => none
  else none

/-- Rule for the emphasis replaces
`/X([^c]+)X/g` → `$1` with delimiter `X` over class complement `c`
(`***`, `**`, `*`, `__`, `_`). -/
def ruleDelim (delim : List Char) (cls : Char) : MdRule := fun _ l =>
  if delim.isPrefixOf l then
    let rest := l.drop delim.length
    let g := rest.takeWhile (fun c => c ≠ cls)
    if g = [] then none
    else if delim.isPrefixOf (rest.drop g.length) then
      some (delim.length * 2 + g.length, g)
    else none
  else none

/-- Rule for `/^\s*[\*\-\+]\s+(.+)$/gm` → `- $1`. -/
def ruleBullet : MdRule := fun prev l =>
  if lineStart prev then
    let w := (l.takeWhile jsWsChar).length
    match l.get? w with
    | some c =>
      if c = '*' ∨ c = '-' ∨ c = '+' then
        match wsContentTail (l.drop (w + 1)) with
        | some (k, g) => some (w + 1 + k, '-' :: ' ' :: g)
        | none => none
      else none
    | none => none
  else none

/-- Rule for `/^\s*\d+\.\s+(.+)$/gm` → `- $1`. -/
def ruleOrdered : MdRule := fun prev l =>
  if lineStart prev then
    let w := (l.takeWhile jsWsChar).length
    let ds := ((l.drop w).takeWhile Char.isDigit).length
    if ds = 0 then none
    else if l.get? (w + ds) = some '.' then
      match wsContentTail (l.drop (w + ds + 1)) with
      | some (k, g) => some (w + ds + 1 + k, '-' :: ' ' :: g)
      | none => none
    else none
  else none

/-- Rule for `/\[([^\]]+)\]\([^)]+\)/g` → `$1`. -/
def ruleLink : MdRule := fun _ l =>
  match l with
  | '[' :: rest =>
    let g₁ := rest.takeWhile (fun c => c ≠ ']')
    if g₁ = [] then none
    else
      match rest.drop g₁.length with
      | ']' :: '(' :: rest₂ =>
        let g₂ := rest₂.takeWhile (fun c => c ≠ ')')
        if g₂ = [] then none
        else if rest₂.get? g₂.length = some ')' then
          some (1 + g₁.length + 2 + g₂.length + 1, g₁)
        else none
      | _ => none
  | _ => none

/-- Rule for `/\[([^\]]+)\]/g` → `$1`. -/
def ruleBracket : MdRule := fun _ l =>
  match l with
  | '[' :: rest =>
    let g := rest.takeWhile (fun c => c ≠ ']')
    if g = [] then none
    else if rest.get? g.length = some ']' then some (1 + g.length + 1, g)
    else none
  | _ => none

/-- Rule for `/^>\s+(.+)$/gm` → `"$1"`. -/
def ruleQuote : MdRule := fun prev l =>
  if lineStart prev then
    match l with
    | '>' :: rest =>
      match wsContentTail rest with
      | some (k, g) => some (1 + k, '"' :: (g ++ ['"']))
      | none => none
    | _ => none
  else none

/-- Rule for `/\n{3,}/g` → `"\n\n"`. -/
def ruleBlankLines : MdRule := fun _ l =>
  let run := (l.takeWhile (fun c => c = '\n')).length
  if run ≥ 3 then some (run, ['\n', '\n']) else none

/-- Rule for `/[ \t]+$/gm` → `""`. -/
def ruleTrailingWs : MdRule := fun _ l =>
  let run := (l.takeWhile (fun c => c = ' ' ∨ c = '\t')).length
  if run = 0 then none
  else
    match l.get? run with
    | none => some (run, [])
    | some '\n' => some (run, [])
    | some _ => none

/-- Rule for `/^[ \t]+/gm` → `""`. -/
def ruleLeadingWs : MdRule := fun prev l =>
  if lineStart prev then
    let run := (l.takeWhile (fun c => c = ' ' ∨ c = '\t')).length
    if run = 0 then none else some (run, [])
  else none

/-- Model of `markdownToText`: the input validation, the sixteen replace passes in
source order, and the final `trim`. -/
def markdownToText (s : String) : String :=
  if s = "" then ""
  else
    let l := s.data
    let l := applyRule ruleCodeBlock l
    let l := applyRule ruleInlineCode l
    let l := applyRule ruleHeader l
    let l := applyRule (ruleDelim ['*', '*', '*'] '*') l
    let l := applyRule (ruleDelim ['*', '*'] '*') l
    let l := applyRule (ruleDelim ['*'] '*') l
    let l := applyRule (ruleDelim ['_', '_'] '_') l
    let l := applyRule (ruleDelim ['_'] '_') l
    let l := applyRule ruleBullet l
    let l := applyRule ruleOrdered l
    let l := applyRule ruleLink l
    let l := applyRule ruleBracket l
    let l := applyRule ruleQuote l
    let l := applyRule ruleBlankLines l
    let l := applyRule ruleTrailingWs l
    let l := applyRule ruleLeadingWs l
    String.mk (jsTrimList l)

/-! ## Page text extraction

The per-page loop of `handleFileUpload` (src/ResearchBuddy.tsx, lines
830–885): each page is decoded inside its own `try`, a failure
contributing a placeholder and an error count instead of aborting; and
the loop of `extractTextFromPDF` (src/ResearchBuddyNative.tsx, lines
184–195), which has no per-page recovery and separates pages with a
newline-pair. -/

/-- The outcome of decoding one page: its joined text-item string, or
the message of the error thrown while reading it. -/
inductive PageOutcome where
  | ok : String → PageOutcome
  | err : String → PageOutcome
deriving DecidableEq

/-- What page `n` contributes to `fullText` in `handleFileUpload`:
`pageText + "\n"` on success, the bracketed placeholder (also
newline-terminated) on failure. -/
def pageContribution (n : Nat) : PageOutcome → String
  | .ok t => t ++ "\n"
  | .err reason => "[Error reading page " ++ toString n ++ ": " ++ reason ++ "]\n"

/-- The extraction loop of `handleFileUpload`, page number `n` onward:
accumulated `fullText` and `pagesWithErrors`. -/
def extractLoop (n : Nat) : List PageOutcome → String × Nat
  | [] => ("", 0)
  | p :: ps =>
    let (rest, e) := extractLoop (n + 1) ps
    (pageContribution n p ++ rest,
     match p with
     | .err _ => e + 1
     | .ok _ => e)

/-- The `extract` operation of `handleFileUpload`: pages are numbered from 1. -/
def extractMain (pages : List PageOutcome) : String × Nat :=
  extractLoop 1 pages

/-- The per-page contributions of `extractMain` in page order. -/
def pageContribs (pages : List PageOutcome) : List String :=
  pages.mapIdx (fun i p => pageContribution (i + 1) p)

/-- The loop of `extractTextFromPDF` in the native variant: every page
text followed by a newline-pair; a page failure there is not caught and
aborts, so the function is modelled on the successful page texts. -/
def nativeFullText : List String → String
  | [] => ""
  | t :: ts => t ++ "\n\n" ++ nativeFullText ts

/-! ## `sendMessage` (src/ResearchBuddy.tsx, lines 1158–1366)

The controller is modelled as a function of the chat state and of the
outcome of the single `generateContent` round trip.  The wall-clock
timings interpolated into the development-mode technical details are
environment-dependent and are represented by the fixed error name and
message alone; every statement below pins `devMode = false`, where the
suffix is empty. -/

/-- A conversation turn. -/
inductive Role where
  | user : Role
  | assistant : Role
deriving DecidableEq, BEq

/-- The `Message` interface of the source: `{role, content}`. -/
structure Message where
  role : Role
  content : String
deriving DecidableEq, BEq

/-- The chat state touched by `sendMessage`. -/
structure ChatState where
  messages : List Message
  currentMessage : String
  pdfText : String
  isLoading : Bool
  devMode : Bool
deriving DecidableEq, BEq

/-- The response object of the completion service, exposing the three
access paths tried in source order: `response.text`,
`response.candidates[0].content.parts[0].text`, `response.response.text`.
`none` is an absent path. -/
structure GeminiResponse where
  text : Option String
  candidateText : Option String
  responseText : Option String

/-- The outcome of the `generateContent` round trip: a response object,
or a thrown error with its message. -/
inductive GeminiOutcome where
  | success : GeminiResponse → GeminiOutcome
  | failure : String → GeminiOutcome

/-- JavaScript `a || b` on strings (an absent path reads as `undefined`,
which is falsy, as is the empty string). -/
def jsOrStr (a b : String) : String :=
  if a = "" then b else a

/-- The text-extraction chain `response.text || candidates…text ||
response.response.text || ""`. -/
def extractResponseText (r : GeminiResponse) : String :=
  jsOrStr (r.text.getD "") (jsOrStr (r.candidateText.getD "") (r.responseText.getD ""))

/-- Role names as serialized by `JSON.stringify`. -/
def roleString : Role → String
  | .user => "user"
  | .assistant => "assistant"

/-- The `JSON.stringify` escaping of one string value (quotes, backslash,
the short control escapes, `\u00XX` for the other control characters). -/
def jsonQuote (s : String) : String :=
  "\"" ++ String.mk (s.data.flatMap (fun c =>
    if c = '"' then ['\\', '"']
    else if c = '\\' then ['\\', '\\']
    else if c = '\n' then ['\\', 'n']
    else if c = '\r' then ['\\', 'r']
    else if c = '\t' then ['\\', 't']
    else if c = '\x08' then ['\\', 'b']
    else if c = '\x0c' then ['\\', 'f']
    else if c.toNat < 0x20 then
      ['\\', 'u', '0', '0',
       (Nat.digitChar (c.toNat / 16)), (Nat.digitChar (c.toNat % 16))]
    else [c])) ++ "\""

/-- The serialization `JSON.stringify(conversationHistory)` of a `Message[]` value. -/
def stringifyMessages (msgs : List Message) : String :=
  "[" ++ String.intercalate ","
    (msgs.map (fun m =>
      "\x7b\"role\":" ++ jsonQuote (roleString m.role) ++
      ",\"content\":" ++ jsonQuote m.content ++ "\x7d")) ++ "]"

/-- Prompt template up to the interpolated paper content. -/
def promptPart1 : String :=
  "You are a research assistant helping analyze a research paper. Here\x27s the full conversation history and the paper content:\n\nPAPER CONTENT:\n"

/-- Prompt template between the paper content and the serialized
conversation history. -/
def promptPart2 : String :=
  "\n\nCONVERSATION HISTORY:\n"

/-- Prompt template after the serialized conversation history. -/
def promptPart3 : String :=
  "\n\nProvide a helpful response about the research paper, considering the full context. Be specific and reference the paper when relevant.\n\nIMPORTANT: Your response must be valid JSON in this exact format:\n\x7b\"response\": \"Your detailed response here\"\x7d\n\nRules for your response:\n1. Escape all quotes inside the response text with \"\n2. Replace all newlines with \\n  \n3. Do not include any text outside the JSON object\n4. Do not use markdown code blocks\n5. Keep the response under 1000 characters to avoid formatting issues\n6. If you reference the paper, use specific page numbers or section titles\n\nJSON Response:"

/-- The prompt assembled by `sendMessage` (lines 1201–1222): the
template with the full `pdfText` and the full serialized conversation
history interpolated, with no truncation or ceiling of any kind. -/
def buildPrompt (pdfText : String) (history : List Message) : String :=
  promptPart1 ++ pdfText ++ promptPart2 ++ stringifyMessages history ++ promptPart3

/-- The assistant message shown when no API key is configured. -/
def apiKeyMissingMsg : String :=
  "❌ API key not configured. Please check your environment variables."

/-- Classified message: API configuration problems. -/
def apiConfigMsg : String :=
  "There\x27s an issue with the API configuration. Please check your setup."

/-- Classified message: network/connectivity failures. -/
def networkMsg : String :=
  "Network connection error. Please check your internet connection and try again."

/-- Classified message: rate-limit/quota failures. -/
def rateLimitMsg : String :=
  "API rate limit exceeded. Please wait a moment before trying again."

/-- Classified message: the service yielded no text. -/
def emptyRespMsg : String :=
  "The AI service returned an empty response. Please try rephrasing your question."

/-- Classified message: any other failure. -/
def unknownErrMsg : String :=
  "An unexpected error occurred. Please try again or rephrase your question."

/-- Message shown when the decoded object has no usable `response`
field. -/
def incompleteRespMsg : String :=
  "I received your message but the response format was incomplete. Please try asking again."

/-- Fallback message of the inner parse-error handler. -/
def parseFallbackMsg : String :=
  "I\x27m having trouble formatting my response properly. Could you please rephrase your question or try again?"

/-- The error message thrown when every text access path is empty. -/
def emptyResponseErr : String :=
  "Empty response from AI service"

/-- The outer catch block's classification of an error message by
substring, in source order (lines 1316–1345). -/
def classifyError (msg : String) : String :=
  if containsSub "API key" msg then apiConfigMsg
  else if containsSub "network" msg || containsSub "fetch" msg then networkMsg
  else if containsSub "rate limit" msg || containsSub "quota" msg then rateLimitMsg
  else if containsSub "Empty response" msg then emptyRespMsg
  else unknownErrMsg

/-- The development-mode technical-details suffix (the elapsed-time
figure interpolated by the source is environment-dependent and lies
outside the suffix modelled here; every statement below sets
`devMode = false`, where the suffix is unused). -/
def devDetails (msg : String) : String :=
  "\n\n**Technical Details:**\n- Error: Error\n- Message: " ++ msg

/-- JavaScript truthiness of the decoded `response` field value. -/
def jsTruthy : Json → Bool
  | .null => false
  | .bool b => b
  | .num q => q ≠ 0
  | .str s => s ≠ ""
  | .arr _ => true
  | .obj _ => true

/-- Rendering of a truthy non-string `response` value as React displays
it (unreachable from every statement below, which only exercise string
fields). -/
def jsDisplay : Json → String
  | .str s => s
  | .bool b => if b then "true" else "false"
  | .num q => toString q
  | .null => ""
  | .arr _ => ""
  | .obj _ => ""

/-- The displayed content `aiResponse.response || incompleteRespMsg` (line 1269). -/
def responseMessageContent (j : Json) : String :=
  match j.getMember "response" with
  | some v => if jsTruthy v then jsDisplay v else incompleteRespMsg
  | none => incompleteRespMsg

/-- The inner parse-error fallback (lines 1281–1288): strip fences,
strip a leading `{` and trailing `}` at the string borders, drop a
`"response": "` label and a closing `"}`, unescape, trim.  The branch is
reachable only if `parseJsonFromMarkdown` throws, which on a non-empty
input it never does. -/
def cleanTextFallback (text : String) : String :=
  let l := stripFences (text.data.length + 1) text.data
  let l :=
    let w := (l.takeWhile jsWsChar).length
    if l.get? w = some '\x7b' then (l.drop (w + 1)) else l
  let l :=
    let r := l.reverse
    let w := (r.takeWhile jsWsChar).length
    if r.get? w = some '\x7d' then (r.drop (w + 1)).reverse else l
  let l :=
    match respLabelIdx (l.length + 1) l with
    | some (i, k) => l.take i ++ l.drop (i + k)
    | none => l
  let l :=
    let r := l.reverse
    let w := (r.takeWhile jsWsChar).length
    let r₁ := r.drop w
    (match r₁ with
     | '\x7d' :: rest =>
       let w₂ := (rest.takeWhile jsWsChar).length
       (match rest.drop w₂ with
        | '"' :: rest₂ => rest₂.reverse
        | _ => l)
     | _ => l)
  let l := replaceSeq ['\\', 'n'] ['\n'] (l.length + 1) l
  let l := replaceSeq ['\\', '"'] ['"'] (l.length + 1) l
  String.mk (jsTrimList l)
where
  /-- The single global pass of the alternation ```` /```json|```/g ````,
  the left alternative preferred at each position. -/
  stripFences : Nat → List Char → List Char
    | 0, l => l
    | _ + 1, [] => []
    | n + 1, c :: cs =>
      if [backquote, backquote, backquote, 'j', 's', 'o', 'n'].isPrefixOf (c :: cs) then
        stripFences n ((c :: cs).drop 7)
      else if [backquote, backquote, backquote].isPrefixOf (c :: cs) then
        stripFences n ((c :: cs).drop 3)
      else c :: stripFences n cs
  /-- Position and length of the first `/"response"\s*:\s*"/i` match. -/
  respLabelIdx : Nat → List Char → Option (Nat × Nat)
    | 0, _ => none
    | _ + 1, [] => none
    | n + 1, c :: cs =>
      let lc := ((c :: cs).take 10).map Char.toLower
      (if lc = ('"' :: 'r' :: 'e' :: 's' :: 'p' :: 'o' :: 'n' :: 's' :: 'e' :: '"' :: []) then
        let w₁ := (((c :: cs).drop 10).takeWhile jsWsChar).length
        match (c :: cs).get? (10 + w₁) with
        | some ':' =>
          let w₂ := (((c :: cs).drop (10 + w₁ + 1)).takeWhile jsWsChar).length
          (match (c :: cs).get? (10 + w₁ + 1 + w₂) with
           | some '"' => some (0, 10 + w₁ + 1 + w₂ + 1)
           | _ => none)
        | _ => none
      else none).orElse
        (fun _ => (respLabelIdx n cs).map (fun p => (p.1 + 1, p.2)))

/-- The result of one `sendMessage` call: the updated chat state,
whether a completion request was dispatched, the prompt it carried and
the conversation history serialized into it. -/
structure SendResult where
  state : ChatState
  requestIssued : Bool
  promptSent : Option String
  sentHistory : Option (List Message)
deriving BEq

/-- Model of `sendMessage`: the empty-message guard, the API-key guard, the
optimistic append of the user turn, the prompt assembly over the *whole*
history, and the success/error handling of the round trip, ending with
`isLoading = false` in the `finally`. -/
def sendMessage (apiKeyPresent : Bool) (st : ChatState) (outcome : GeminiOutcome) : SendResult :=
  if jsTrim st.currentMessage = "" then
    ⟨st, false, none, none⟩
  else if ¬ apiKeyPresent then
    ⟨{ st with messages := st.messages ++ [⟨.assistant, apiKeyMissingMsg⟩] }, false, none, none⟩
  else
    let userMessage : Message := ⟨.user, st.currentMessage⟩
    let conversationHistory := st.messages ++ [userMessage]
    let prompt := buildPrompt st.pdfText conversationHistory
    let st₁ : ChatState :=
      { st with messages := conversationHistory, currentMessage := "", isLoading := true }
    let fail (errMsg : String) : SendResult :=
      let content := classifyError errMsg ++ (if st.devMode then devDetails errMsg else "")
      ⟨{ st₁ with messages := st₁.messages ++ [⟨.assistant, content⟩], isLoading := false },
       true, some prompt, some conversationHistory⟩
    match outcome with
    | .failure errMsg => fail errMsg
    | .success r =>
      let text := extractResponseText r
      if text = "" then fail emptyResponseErr
      else
        match parseJsonFromMarkdown text with
        | .ok aiResponse =>
          ⟨{ st₁ with
              messages := st₁.messages ++ [⟨.assistant, responseMessageContent aiResponse⟩],
              isLoading := false },
           true, some prompt, some conversationHistory⟩
        | .error _ =>
          let cleanText := cleanTextFallback text
          ⟨{ st₁ with
              messages := st₁.messages ++
                [⟨.assistant, if cleanText = "" then parseFallbackMsg else cleanText⟩],
              isLoading := false },
           true, some prompt, some conversationHistory⟩

/-! ## Conversation-history operations

Each `setMessages` call site of the two variants, as an operation on the
displayed message list. -/

/-- JavaScript `prev.slice(0, -1)`. -/
def jsSliceDropLast (l : List Message) : List Message :=
  l.take (l.length - 1)

/-- The progress/final-statistics update of `handleFileUpload` (lines
865–873 and 909–918): `[...prev.slice(0, -1), m]`. -/
def progressUpdate (prev : List Message) (m : Message) : List Message :=
  jsSliceDropLast prev ++ [m]

/-- The plain appends `[...prev, m]` used by `sendMessage` and the
validation/error paths. -/
def appendTurn (prev : List Message) (m : Message) : List Message :=
  prev ++ [m]

/-- The wholesale replacement `setMessages([m])` at the start of an
upload (line 792). -/
def uploadInitMessages (m : Message) : List Message :=
  [m]

/-- The explicit reset of the native variant's Clear button. -/
def resetMessages : List Message :=
  []

/-! ## Shared lemmas -/

/-- Folding string concatenation from an initial accumulator prepends
the accumulator to the join. -/
theorem foldl_append_eq_append_join (l : List String) :
    ∀ a : String, l.foldl (· ++ ·) a = a ++ String.join l := by
  induction l with
  | nil => intro a; simp [String.join, String.append_empty]
  | cons s t ih =>
    intro a
    simp only [String.join, List.foldl_cons] at *
    rw [ih (a ++ s), ih ("" ++ s), String.empty_append, String.append_assoc]

/-- The join of a cons is the head appended to the join of the tail. -/
theorem join_cons (s : String) (l : List String) :
    String.join (s :: l) = s ++ String.join l := by
  simpa using foldl_append_eq_append_join l ("" ++ s)

/-- The extraction loop's accumulated text is the join of the per-page
contributions numbered from `n`. -/
theorem extractLoop_fst (pages : List PageOutcome) :
    ∀ n : Nat, (extractLoop n pages).1 =
      String.join (pages.mapIdx fun i p => pageContribution (n + i) p) := by
  induction pages with
  | nil => intro n; simp [extractLoop, String.join]
  | cons p ps ih =>
    intro n
    simp only [extractLoop, List.mapIdx_cons, join_cons, Nat.add_zero]
    rw [show (fun i q => pageContribution (n + (i + 1)) q) =
          (fun i q => pageContribution ((n + 1) + i) q) by
        funext i q; rw [Nat.add_comm i 1, ← Nat.add_assoc]]
    rw [← ih (n + 1)]

/-- The full text of the main extractor is the join of the per-page
contributions. -/
theorem extractMain_fullText (pages : List PageOutcome) :
    (extractMain pages).1 = String.join (pageContribs pages) := by
  simpa [extractMain, pageContribs, Nat.add_comm] using extractLoop_fst pages 1

/-! ## C4 — per-page failure isolation in extraction -/

/-- C4: page decoding failures contribute exactly the
`[Error reading page N: reason]` placeholder, extraction continues over
every page, and the number of per-page contributions equals the input
page count. -/
theorem c4_page_failure_isolated (pages : List PageOutcome) :
    (extractMain pages).1 = String.join (pageContribs pages) ∧
    (pageContribs pages).length = pages.length ∧
    (∀ (i : Nat) (reason : String), pages[i]? = some (.err reason) →
      (pageContribs pages)[i]? =
        some ("[Error reading page " ++ toString (i + 1) ++ ": " ++ reason ++ "]\n")) := by
  refine ⟨extractMain_fullText pages, List.length_mapIdx, ?_⟩
  intro i reason h
  simp [pageContribs, List.getElem?_mapIdx, h, pageContribution]

/-- C4 witness: a three-page document whose second page fails. -/
theorem c4_page_failure_isolated_witness :
    (pageContribs [.ok "a", .err "boom", .ok "c"])[1]? =
      some ("[Error reading page " ++ toString (1 + 1) ++ ": " ++ "boom" ++ "]\n") :=
  (c4_page_failure_isolated [.ok "a", .err "boom", .ok "c"]).2.2 1 "boom" rfl

/-! ## C8 — page-boundary markers in `fullText` -/

/-- C8 counterexample: the extractor of `handleFileUpload` separates
pages with a single newline, not with the claimed newline-pair. -/
theorem c8_counterexample :
    (extractMain [.ok "a", .ok "b"]).1 = "a\nb\n" ∧
    ("a\nb\n" : String) ≠ "a\n\nb\n\n" := by
  constructor
  · rfl
  · decide

/-- C8 (amended): the native-viewer extractor separates page texts with
a newline-pair; the `handleFileUpload` extractor appends a single
newline to each page text or placeholder. -/
theorem c8_page_markers :
    (∀ texts : List String,
      nativeFullText texts = String.join (texts.map (fun t => t ++ "\n\n"))) ∧
    (∀ pages : List PageOutcome,
      (extractMain pages).1 = String.join (pageContribs pages)) := by
  constructor
  · intro texts
    induction texts with
    | nil => simp [nativeFullText, String.join]
    | cons t ts ih => simp [nativeFullText, join_cons, ih, String.append_assoc]
  · exact fun pages => extractMain_fullText pages

/-! ## C5 — idempotence of the normalizer -/

/-- C5 counterexample: `markdownToText` is not idempotent.  Stripping the
reference brackets of `[[a]](b)` exposes the hyperlink pattern `[a](b)`,
which only a second pass rewrites to `a`. -/
theorem c5_counterexample :
    markdownToText "[[a]](b)" = "[a](b)" ∧
    markdownToText "[a](b)" = "a" ∧
    markdownToText (markdownToText "[[a]](b)") ≠ markdownToText "[[a]](b)" := by
  refine ⟨rfl, rfl, ?_⟩
  decide

/-- C5 (amended): the normalizer is not idempotent on all inputs (see
the counterexample); it is idempotent on the specification's own
examples, whose stated values it produces. -/
theorem c5_normalizer_examples :
    markdownToText "**bold**" = "bold" ∧
    markdownToText "# Title\n- item" = "Title\n- item" ∧
    markdownToText (markdownToText "**bold**") = markdownToText "**bold**" ∧
    markdownToText (markdownToText "# Title\n- item") = markdownToText "# Title\n- item" := by
  exact ⟨rfl, rfl, rfl, rfl⟩

/-! ## C1 — totality of the structured-reply decoder -/

/-- Is a decoded value an object whose `response` member is a string? -/
def isResponseObject (j : Json) : Bool :=
  match j.getMember "response" with
  | some (.str _) => true
  | _ => false

/-- C1 counterexample: on the empty string the decoder throws instead of
returning, and a non-empty input can decode to a bare JSON value that is
not of the `{response: string}` shape. -/
theorem c1_counterexample :
    parseJsonFromMarkdown "" = .error invalidInputMsg ∧
    parseJsonFromMarkdown "\"x\"" = .ok (Json.str "x") ∧
    isResponseObject (Json.str "x") = false := by
  exact ⟨rfl, rfl, rfl⟩

/-- C1 (amended): for every *non-empty* input the decoder returns a
value without raising; `decode("not json at all")` is the non-empty
fallback object; the empty string alone is rejected by the input
validation and throws. -/
theorem c1_decoder_total :
    (∀ s : String, s ≠ "" → ∃ v, parseJsonFromMarkdown s = .ok v) ∧
    parseJsonFromMarkdown "not json at all" =
      .ok (Json.obj [("response", Json.str "not json at all")]) ∧
    ("not json at all" : String) ≠ "" := by
  refine ⟨fun s hs => ⟨parseCascade s, ?_⟩, rfl, by decide⟩
  simp [parseJsonFromMarkdown, hs]

/-- C1 witness: the amended totality at a concrete non-JSON input. -/
theorem c1_decoder_total_witness :
    ("hello there" : String) ≠ "" ∧ ∃ v, parseJsonFromMarkdown "hello there" = .ok v :=
  ⟨by decide, c1_decoder_total.1 "hello there" (by decide)⟩

/-! ## C7 — fenced-block extraction is the first strategy -/

/-- C7: whenever the fenced-block extraction finds json-tagged contents
and those contents parse, the decoder returns exactly the parsed value
(strategy 1a, before any other strategy can run). -/
theorem c7_fenced_block_decode (md s : String) (j : Json)
    (h₁ : jsonBlockContent md = some s) (h₂ : parseJson s = some j) :
    parseJsonFromMarkdown md = .ok j := by
  have hmd : md ≠ "" := by
    intro h
    rw [h, show jsonBlockContent "" = none from rfl] at h₁
    exact Option.noConfusion h₁
  have hstrat : strategy1 md = some j := by
    simp only [strategy1, h₁, h₂]
  simp only [parseJsonFromMarkdown, if_neg hmd, parseCascade, hstrat]

/-- C7 witness: the specification's own example block decodes to
`{response: "Hi"}`. -/
theorem c7_fenced_block_decode_witness :
    parseJsonFromMarkdown "```json\n\x7b\"response\":\"Hi\"\x7d\n```" =
      .ok (Json.obj [("response", Json.str "Hi")]) :=
  c7_fenced_block_decode _ "\x7b\"response\":\"Hi\"\x7d" _ rfl rfl

/-! ## C9 — history operations -/

/-- C9 counterexample: the extraction progress update
`[...prev.slice(0, -1), m]` removes the last displayed turn, so the
previous history is not a prefix of the result (it was neither appended
to nor cleared wholesale). -/
theorem c9_counterexample :
    progressUpdate [⟨.user, "a"⟩, ⟨.assistant, "b"⟩] ⟨.assistant, "p"⟩ =
      [⟨.user, "a"⟩, ⟨.assistant, "p"⟩] ∧
    ¬ ([⟨.user, "a"⟩, ⟨.assistant, "b"⟩] : List Message) <+:
        progressUpdate [⟨.user, "a"⟩, ⟨.assistant, "b"⟩] ⟨.assistant, "p"⟩ ∧
    progressUpdate [⟨.user, "a"⟩, ⟨.assistant, "b"⟩] ⟨.assistant, "p"⟩ ≠ [] := by
  refine ⟨rfl, by decide, by decide⟩

/-- C9 (amended): the `sendMessage`, validation and error paths only
append, preserving the displayed history as a prefix, and the explicit
reset clears wholesale; but the extraction progress and final-statistics
updates of `handleFileUpload` replace the last displayed turn
(`slice(0, -1)` then append), and a new upload replaces the whole list. -/
theorem c9_history_ops :
    (∀ (prev : List Message) (m : Message), appendTurn prev m = prev ++ [m]) ∧
    (∀ (prev : List Message) (m : Message), prev <+: appendTurn prev m) ∧
    (∀ (prev : List Message) (m : Message),
      progressUpdate prev m = prev.dropLast ++ [m]) ∧
    (∀ m : Message, uploadInitMessages m = [m]) ∧
    resetMessages = [] := by
  refine ⟨fun prev m => rfl, fun prev m => ⟨[m], rfl⟩, fun prev m => ?_, fun m => rfl, rfl⟩
  rw [progressUpdate, jsSliceDropLast, ← List.dropLast_eq_take]

/-! ## C10 — empty message is a no-op -/

/-- C10: with an empty or whitespace-only `currentMessage`, `sendMessage`
returns before any state change: no request is issued and the messages,
input and loading flag are untouched. -/
theorem c10_empty_message_noop (apiKeyPresent : Bool) (st : ChatState)
    (o : GeminiOutcome) (h : jsTrim st.currentMessage = "") :
    sendMessage apiKeyPresent st o = ⟨st, false, none, none⟩ := by
  rw [sendMessage, if_pos h]

/-- C10 witness: a whitespace-only message leaves a concrete state
untouched. -/
theorem c10_empty_message_noop_witness :
    sendMessage true ⟨[⟨.user, "a"⟩], " \n\t ", "doc", false, false⟩ (.failure "x") =
      ⟨⟨[⟨.user, "a"⟩], " \n\t ", "doc", false, false⟩, false, none, none⟩ :=
  c10_empty_message_noop true ⟨[⟨.user, "a"⟩], " \n\t ", "doc", false, false⟩
    (.failure "x") (by decide)

/-! ## The `sendMessage` request path (shared by C2, C3, C6) -/

/-- Once the two guards pass, `sendMessage` dispatches the request with
the prompt built over the whole history plus the new user turn. -/
theorem sendMessage_run (st : ChatState) (o : GeminiOutcome)
    (h₁ : ¬ jsTrim st.currentMessage = "") :
    (sendMessage true st o).requestIssued = true ∧
    (sendMessage true st o).promptSent =
      some (buildPrompt st.pdfText (st.messages ++ [⟨.user, st.currentMessage⟩])) ∧
    (sendMessage true st o).sentHistory =
      some (st.messages ++ [⟨.user, st.currentMessage⟩]) := by
  rw [sendMessage, if_neg h₁, if_neg (not_not_intro rfl)]
  cases o with
  | failure e => simp
  | success r =>
    by_cases ht : extractResponseText r = ""
    · simp [ht]
    · cases hp : parseJsonFromMarkdown (extractResponseText r) with
      | ok j => simp [ht, hp]
      | error e => simp [ht, hp]

/-! ## C2 — no history condensation -/

/-- C2 counterexample: with a conversation history of 35 turns (34 prior
turns plus the new user turn), the context sent to the completion
service contains all 35 turns, not the claimed 3 + 1 + 25 = 29. -/
theorem c2_counterexample :
    ((sendMessage true ⟨List.replicate 34 ⟨.user, "x"⟩, "q", "doc", false, false⟩
        (.failure "boom")).sentHistory).map List.length = some 35 ∧
    (35 : Nat) ≠ 29 := by
  constructor
  · decide
  · decide

/-- C2 (amended): `sendMessage` performs no history condensation: the
conversation history serialized into the request is the entire displayed
history followed by the new user turn, so it always has one more turn
than the prior history. -/
theorem c2_no_condensation (st : ChatState) (o : GeminiOutcome)
    (h₁ : ¬ jsTrim st.currentMessage = "") :
    (sendMessage true st o).sentHistory =
      some (st.messages ++ [⟨.user, st.currentMessage⟩]) ∧
    ((sendMessage true st o).sentHistory).map List.length =
      some (st.messages.length + 1) := by
  obtain ⟨-, -, hs⟩ := sendMessage_run st o h₁
  exact ⟨hs, by rw [hs]; simp⟩

/-- C2 witness: the amended statement at a concrete two-turn history. -/
theorem c2_no_condensation_witness :
    ((sendMessage true ⟨[⟨.user, "a"⟩, ⟨.assistant, "b"⟩], "q", "doc", false, false⟩
        (.failure "x")).sentHistory).map List.length = some 3 :=
  (c2_no_condensation ⟨[⟨.user, "a"⟩, ⟨.assistant, "b"⟩], "q", "doc", false, false⟩
    (.failure "x") (by decide)).2

/-! ## C3 — no whole-prompt ceiling -/

/-- The document text occupying 200,001 characters in the C3
counterexample. -/
def bigDoc : String := String.mk (List.replicate 200001 'a')

/-- C3 counterexample: with a 200,001-character document text the
assembled prompt exceeds 200,000 characters and the request is
dispatched anyway — there is no `ContextTooLargeError` path. -/
theorem c3_counterexample :
    (sendMessage true ⟨[], "q", bigDoc, false, false⟩ (.failure "x")).requestIssued = true ∧
    200000 <
      ((sendMessage true ⟨[], "q", bigDoc, false, false⟩ (.failure "x")).promptSent.getD "").length := by
  constructor
  · rfl
  · have hps : (sendMessage true ⟨[], "q", bigDoc, false, false⟩ (.failure "x")).promptSent =
        some (buildPrompt bigDoc [⟨.user, "q"⟩]) := rfl
    rw [hps, Option.getD_some, buildPrompt]
    simp only [String.length_append]
    have hbig : bigDoc.length = 200001 := by
      show (List.replicate 200001 'a').length = 200001
      exact List.length_replicate 200001 'a'
    omega

/-- C3 (amended): `sendMessage` enforces no whole-prompt ceiling: the
prompt always embeds the full document text (its length bounds the
prompt's length from below) and the request is dispatched whenever the
message is non-empty and the API key is configured. -/
theorem c3_no_prompt_ceiling (st : ChatState) (o : GeminiOutcome)
    (h₁ : ¬ jsTrim st.currentMessage = "") :
    (sendMessage true st o).requestIssued = true ∧
    (sendMessage true st o).promptSent =
      some (buildPrompt st.pdfText (st.messages ++ [⟨.user, st.currentMessage⟩])) ∧
    (∀ (d : String) (h : List Message), d.length ≤ (buildPrompt d h).length) := by
  obtain ⟨hr, hp, -⟩ := sendMessage_run st o h₁
  refine ⟨hr, hp, fun d h => ?_⟩
  rw [buildPrompt]
  simp only [String.length_append]
  omega

/-- C3 witness: the amended statement at a concrete state. -/
theorem c3_no_prompt_ceiling_witness :
    (sendMessage true ⟨[], "q", "doc", false, false⟩ (.failure "x")).requestIssued = true ∧
    ("doc" : String).length ≤ (buildPrompt "doc" [⟨.user, "q"⟩]).length :=
  ⟨(c3_no_prompt_ceiling ⟨[], "q", "doc", false, false⟩ (.failure "x") (by decide)).1,
   (c3_no_prompt_ceiling ⟨[], "q", "doc", false, false⟩ (.failure "x") (by decide)).2.2
     "doc" [⟨.user, "q"⟩]⟩

/-! ## C6 — response-text access paths and failure classification -/

/-- Every classified failure message is one of the five user-facing
messages of the outer catch block. -/
theorem classifyError_mem (e : String) :
    classifyError e ∈ [apiConfigMsg, networkMsg, rateLimitMsg, emptyRespMsg, unknownErrMsg] := by
  rw [classifyError]
  split_ifs <;> simp

/-- C6 counterexample: a service failure mentioning the API key resolves
to the API-configuration message, which is none of the four classes
(network, rate-limit/quota, empty-response, unknown) enumerated by the
claim. -/
theorem c6_counterexample :
    ((sendMessage true ⟨[], "q", "", false, false⟩
        (.failure "API key invalid")).state.messages.getLast?).map Message.content =
      some apiConfigMsg ∧
    apiConfigMsg ∉ [networkMsg, rateLimitMsg, emptyRespMsg, unknownErrMsg] := by
  constructor
  · decide
  · decide

/-- C6 (amended): the controller reads the response text from the three
access paths in source order, the first non-empty one authoritative;
when every path is empty the exchange resolves to the empty-response
message; and a failed round trip never escapes `sendMessage` — it
resolves to one of *five* classified user-facing messages
(API-configuration, network, rate-limit/quota, empty-response, unknown),
with the loading flag cleared. -/
theorem c6_response_paths_and_classification :
    (∀ (r : GeminiResponse) (t : String), r.text = some t → t ≠ "" →
      extractResponseText r = t) ∧
    (∀ (r : GeminiResponse) (t : String), (r.text = none ∨ r.text = some "") →
      r.candidateText = some t → t ≠ "" → extractResponseText r = t) ∧
    (∀ (r : GeminiResponse) (t : String), (r.text = none ∨ r.text = some "") →
      (r.candidateText = none ∨ r.candidateText = some "") →
      r.responseText = some t → extractResponseText r = t) ∧
    (∀ (st : ChatState) (r : GeminiResponse), st.devMode = false →
      ¬ jsTrim st.currentMessage = "" → extractResponseText r = "" →
      ((sendMessage true st (.success r)).state.messages.getLast?).map Message.content =
        some emptyRespMsg ∧
      (sendMessage true st (.success r)).state.isLoading = false) ∧
    (∀ (st : ChatState) (e : String), st.devMode = false →
      ¬ jsTrim st.currentMessage = "" →
      ((sendMessage true st (.failure e)).state.messages.getLast?).map Message.content =
        some (classifyError e) ∧
      classifyError e ∈ [apiConfigMsg, networkMsg, rateLimitMsg, emptyRespMsg, unknownErrMsg] ∧
      (sendMessage true st (.failure e)).state.isLoading = false) := by
  refine ⟨?_, ?_, ?_, ?_, ?_⟩
  · intro r t h₁ h₂
    simp [extractResponseText, h₁, jsOrStr, h₂]
  · intro r t h₁ h₂ h₃
    rcases h₁ with h | h <;> simp [extractResponseText, h, h₂, jsOrStr, h₃]
  · intro r t h₁ h₂ h₃
    rcases h₁ with h | h <;> rcases h₂ with h' | h' <;>
      simp [extractResponseText, h, h', h₃, jsOrStr]
  · intro st r hdev h₁ ht
    have hc : classifyError emptyResponseErr = emptyRespMsg := by decide
    rw [sendMessage, if_neg h₁, if_neg (not_not_intro rfl)]
    simp [ht, hdev, hc, List.getLast?_concat, String.append_empty]
  · intro st e hdev h₁
    rw [sendMessage, if_neg h₁, if_neg (not_not_intro rfl)]
    refine ⟨?_, classifyError_mem e, ?_⟩ <;>
      simp [hdev, List.getLast?_concat, String.append_empty]

/-- C6 witness: each conjunct at a concrete response or failure. -/
theorem c6_response_paths_witness :
    extractResponseText ⟨some "hi", some "alt", none⟩ = "hi" ∧
    extractResponseText ⟨some "", some "alt", none⟩ = "alt" ∧
    extractResponseText ⟨none, none, some "deep"⟩ = "deep" ∧
    ((sendMessage true ⟨[], "q", "doc", false, false⟩
        (.success ⟨none, none, none⟩)).state.messages.getLast?).map Message.content =
      some emptyRespMsg ∧
    ((sendMessage true ⟨[], "q", "doc", false, false⟩
        (.failure "fetch failed")).state.messages.getLast?).map Message.content =
      some (classifyError "fetch failed") :=
  ⟨c6_response_paths_and_classification.1 ⟨some "hi", some "alt", none⟩ "hi" rfl (by decide),
   c6_response_paths_and_classification.2.1 ⟨some "", some "alt", none⟩ "alt"
     (Or.inr rfl) rfl (by decide),
   c6_response_paths_and_classification.2.2.1 ⟨none, none, some "deep"⟩ "deep"
     (Or.inl rfl) (Or.inl rfl) rfl,
   (c6_response_paths_and_classification.2.2.2.1 ⟨[], "q", "doc", false, false⟩
     ⟨none, none, none⟩ rfl (by decide) rfl).1,
   (c6_response_paths_and_classification.2.2.2.2 ⟨[], "q", "doc", false, false⟩
     "fetch failed" rfl (by decide)).1⟩
